import Mathlib

/-!
Shallow embedding of `scraper/gamestar_scraper.py` (GameStore repository).

Strings are modelled as `List Char`; Python floats as `Rat` (the claims only
concern exactness-preserving decimal values and none-ness, never rounding).
BeautifulSoup `get_text(strip=True)` is modelled as trimming the tag's raw
text; the network is modelled by oracles giving the outcome of each request.
-/

namespace GameStore

/-- Whitespace as matched by Python `str.strip` and the regex class `\s`
(ASCII portion, which is all the scraper's patterns rely on). -/
def isSpaceP (c : Char) : Bool :=
  c == ' ' || c == '\t' || c == '\n' || c == '\r' || c == '\x0b' || c == '\x0c'

/-- Case folding used for the `re.IGNORECASE` badge pattern and `.lower()`;
ASCII lowering plus the one non-ASCII letter appearing in the patterns. -/
def lowerChar (c : Char) : Char :=
  if c == 'Ë' then 'ë' else c.toLower

/-- Python `str.strip()` / BeautifulSoup `get_text(strip=True)`:
drop leading and trailing whitespace. -/
def trimChars (s : List Char) : List Char :=
  ((s.dropWhile isSpaceP).reverse.dropWhile isSpaceP).reverse

/-- First alternative of `_BAD_TITLE_RE`: `^\s*-\d+%$`
(a pure discount-percentage token); `$` also matches before a final newline. -/
def badAlt1 (t : List Char) : Bool :=
  match t.dropWhile isSpaceP with
  | '-' :: rest =>
      let ds := rest.takeWhile Char.isDigit
      let r := rest.dropWhile Char.isDigit
      (!ds.isEmpty) && (r == ['%'] || r == ['%', '\n'])
  | _ => false

/-- Regex `\s+`: consume at least one whitespace character, return the rest. -/
def eatSpaces1 (t : List Char) : Option (List Char) :=
  match t with
  | c :: rest => if isSpaceP c then some (rest.dropWhile isSpaceP) else none
  | [] => none

/-- Second alternative of `_BAD_TITLE_RE`: `^ska\s+n[eë]\s+stok\s*$`
(the storefront's local-language out-of-stock phrase). -/
def badAlt2 (t : List Char) : Bool :=
  match t with
  | 's' :: 'k' :: 'a' :: rest =>
      match eatSpaces1 rest with
      | some ('n' :: c :: rest2) =>
          if c == 'e' || c == 'ë' then
            match eatSpaces1 rest2 with
            | some ('s' :: 't' :: 'o' :: 'k' :: rest3) =>
                (rest3.dropWhile isSpaceP).isEmpty
            | _ => false
          else false
      | _ => false
  | _ => false

/-- `_BAD_TITLE_RE.match(title)`: the badge pattern, case-insensitive. -/
def badTitle (s : List Char) : Bool :=
  let t := s.map lowerChar
  badAlt1 t || badAlt2 t

/-- Value of a digit string (used for both sides of the decimal point). -/
def digitsVal (ds : List Char) : Nat :=
  ds.foldl (fun a c => a * 10 + (c.toNat - 48)) 0

/-- Unsigned part of Python `float` parsing over digit/dot characters:
digits with at most one dot and at least one digit, valued as
integer-part plus fractional-part. -/
def pyFloatCore (neg : Bool) (t : List Char) : Option Rat :=
  if t.all (fun c => c.isDigit || c == '.') && t.count '.' ≤ 1
      && t.any Char.isDigit then
    let ip := t.takeWhile (fun c => c != '.')
    let rest := t.dropWhile (fun c => c != '.')
    let fp := match rest with | _ :: r => r | [] => []
    let v : Rat := mkRat (digitsVal ip * 10 ^ fp.length + digitsVal fp) (10 ^ fp.length)
    some (if neg then -v else v)
  else none

/-- Python `float(num)` restricted to the characters that survive
`parse_price`'s filter (digits, dots, minus signs): an optional leading
minus, then digits with at most one dot and at least one digit; anything
else raises, i.e. yields `none`. -/
def pyFloatNum (s : List Char) : Option Rat :=
  if s.head? = some '-' then pyFloatCore true s.tail else pyFloatCore false s

/-- `parse_price(text)`: strip currency symbols, trim, turn every comma into
a dot, keep only digits, dots and minus signs, then parse as a float;
`none` on the empty input, an empty residue, or a failing parse. -/
def parse_price (text : List Char) : Option Rat :=
  if text = [] then none
  else
    let p1 := text.filter (fun c => !(c == '€') && !(c == '$'))
    let p2 := trimChars p1
    let p3 := p2.map (fun c => if c == ',' then '.' else c)
    let num := p3.filter (fun c => c.isDigit || c == '.' || c == '-')
    if num = [] then none else pyFloatNum num

/-- One `li.product` entry of a listing page, carrying what the selector
chains of `scrape_category` would extract from it: the raw text of the first
matching title tag (`none` when no selector matched), the raw text of the
first matching price tag, the `href` of the first matching anchor, the raw
text of the first matching stock tag, and the raw text of the detail page's
heading when the fallback fetch would succeed (`none` models a failed fetch
or a detail page without a heading). Absolute-URL resolution (`urljoin`)
is not modelled; no claim refers to it. -/
structure Item where
  titleText : Option (List Char)
  priceText : Option (List Char)
  linkHref : Option (List Char)
  stockText : Option (List Char)
  detailTitleText : Option (List Char)
deriving DecidableEq

/-- The record dict appended to `products` by `scrape_category`. -/
structure Product where
  name : List Char
  price : Option Rat
  brand : Option (List Char)
  status : Option (List Char)
  product_url : Option (List Char)
deriving DecidableEq

/-- Python substring membership `needle in hay`. -/
def containsSub (needle : List Char) : List Char → Bool
  | [] => needle.isEmpty
  | c :: rest => List.isPrefixOf needle (c :: rest) || containsSub needle rest

/-- The stock-status classification block of `scrape_category`:
`get_text(strip=True).lower()` then substring tests, out-of-stock markers
first, otherwise the stripped raw text. -/
def stockStatus : Option (List Char) → Option (List Char)
  | none => none
  | some raw =>
      let st := (trimChars raw).map lowerChar
      if containsSub "out".toList st || containsSub "ska".toList st then
        some "out of stock".toList
      else if containsSub "in stock".toList st
          || containsSub "available".toList st then
        some "in stock".toList
      else some (trimChars raw)

/-- Python `not title or _BAD_TITLE_RE.match(title)`: the title is missing,
empty, or badge-like. -/
def titleFails : Option (List Char) → Bool
  | none => true
  | some t => t.isEmpty || badTitle t

/-- Title resolution for one entry: the listing title (text of the matched
tag, stripped), then — when missing or badge-like and a product link exists
— the detail-page fallback `fetch_product_detail`, whose result replaces
the title only when truthy (non-empty). -/
def resolveTitle (it : Item) : Option (List Char) :=
  let title0 := it.titleText.map trimChars
  if titleFails title0 then
    match it.linkHref with
    | some _ =>
        match it.detailTitleText.map trimChars with
        | some dt => if dt.isEmpty then title0 else some dt
        | none => title0
    | none => title0
  else title0

/-- The per-entry body of `scrape_category`: resolve the fields, re-check
the resolved title, and either discard the entry (`none`) or build the
record appended to `products`. -/
def processItem (it : Item) : Option Product :=
  let price := match it.priceText with | some t => parse_price t | none => none
  match resolveTitle it with
  | some t =>
      if t.isEmpty || badTitle t then none
      else some ⟨t, price, none, stockStatus it.stockText, it.linkHref⟩
  | none => none

/-- A successfully fetched listing page, as the entry nodes the parser
would find in it. -/
structure Page where
  items : List Item
deriving DecidableEq

/-- Outcome of one manual attempt of the page fetch loop, i.e. of one
`s.get(page_url)` + `raise_for_status()` round: a page body, or a raised
`requests.exceptions.RequestException` carrying the HTTP status when the
failure was an HTTP error (e.g. `some 404`) and `none` for transport
errors. The loop never inspects the exception, only catches it. -/
inductive AttemptResult where
  | ok (pg : Page)
  | err (status : Option Nat)
deriving DecidableEq

/-- Result of the manual retry loop for one page: the fetched body if any,
the backoff sleeps performed (in order, in seconds), and the number of
attempts made. -/
structure FetchOut where
  page : Option Page
  waits : List Rat
  attempts : Nat
deriving DecidableEq

/-- The manual retry loop of `scrape_category` (`while attempts <
max_attempts`), with `oracle k` the outcome of attempt `k` (1-based):
on failure with attempts left, sleep `base * 2 ^ (attempts - 1)` and
retry; after the last attempt, give up with `r = None`. `fuel` is the
number of attempts still allowed. -/
def fetchGo (oracle : Nat → AttemptResult) (base : Rat) : Nat → Nat → FetchOut
  | _, 0 => ⟨none, [], 0⟩
  | k, n + 1 =>
      match oracle k with
      | AttemptResult.ok pg => ⟨some pg, [], 1⟩
      | AttemptResult.err _ =>
          if n = 0 then ⟨none, [], 1⟩
          else
            let r := fetchGo oracle base (k + 1) n
            ⟨r.page, base * 2 ^ (k - 1) :: r.waits, r.attempts + 1⟩

/-- The page fetch of `scrape_category`: up to `maxA` attempts starting
at attempt 1. In the source, `base = 1.0` and `max_attempts = 3`. -/
def fetchPage (oracle : Nat → AttemptResult) (base : Rat) (maxA : Nat) : FetchOut :=
  fetchGo oracle base 1 maxA

/-- What one iteration of the page loop did: the backoff sleeps of its
fetch, whether a body was obtained, the records extracted, and the polite
`time.sleep(0.45)` at the end of the iteration — `none` when the iteration
was cut short by `continue` after fetch exhaustion. -/
structure PageTrace where
  waits : List Rat
  fetched : Bool
  products : List Product
  politeDelay : Option Rat
deriving DecidableEq

/-- One iteration of the page loop of `scrape_category`: fetch with 3
attempts and base 1.0; on exhaustion `continue` (skipping the polite
delay), otherwise parse the items and sleep 0.45 s. -/
def runPage (oracle : Nat → AttemptResult) : PageTrace :=
  let f := fetchPage oracle 1 3
  match f.page with
  | some pg => ⟨f.waits, true, pg.items.filterMap processItem, some (mkRat 9 20)⟩
  | none => ⟨f.waits, false, [], none⟩

/-- The whole page loop of `scrape_category` over pages `1 .. maxPages`,
with `oracles page attempt` the outcome of each attempt of each page.
The homepage cookie warm-up and the page-URL derivation have no bearing
on any claim and are not modelled. -/
def scrapeTrace (oracles : Nat → Nat → AttemptResult) (maxPages : Nat) : List PageTrace :=
  (List.range maxPages).map (fun i => runPage (oracles (i + 1)))

/-- `scrape_category`: the accumulated `products` list, page by page in
order. -/
def scrape_category (oracles : Nat → Nat → AttemptResult) (maxPages : Nat) : List Product :=
  (scrapeTrace oracles maxPages).flatMap PageTrace.products

/-- Outcome of one `s.post(endpoint, ...)` call inside
`post_products_to_api`: an HTTP response with a status code, or a raised
exception. `oracle k` below is the outcome of the k-th POST call made
during the run (0-based). -/
inductive PostResult where
  | status (code : Nat)
  | exc
deriving DecidableEq

/-- Per-record outcome of a publish run. -/
inductive PubOutcome where
  | published
  | skippedDup
  | failed
deriving DecidableEq

/-- The mutable state of `post_products_to_api`: the in-memory known-set
`existing`, the two counters, the number of POST calls made so far, and
the per-record outcome log (one entry per processed candidate, in order). -/
structure PostState where
  existing : List (List Char)
  posted : Nat
  skipped : Nat
  calls : Nat
  log : List PubOutcome
deriving DecidableEq

/-- State at the top of the publish loop: `existing` is the known-set
returned by `get_existing_names_from_api` (empty on fetch failure),
both counters zero. -/
def initState (init : List (List Char)) : PostState :=
  ⟨init, 0, 0, 0, []⟩

/-- The body of the publish loop for one candidate: skip it when its name
is in the known-set; otherwise POST it, and on status 200 or 201 increment
`posted` and add the name to the known-set; on any other status or on an
exception just log the failure and continue. -/
def pubStep (oracle : Nat → PostResult) (st : PostState) (p : Product) : PostState :=
  if p.name ∈ st.existing then
    { st with skipped := st.skipped + 1, log := st.log ++ [PubOutcome.skippedDup] }
  else
    match oracle st.calls with
    | PostResult.status c =>
        if c = 200 ∨ c = 201 then
          { existing := p.name :: st.existing, posted := st.posted + 1,
            skipped := st.skipped, calls := st.calls + 1,
            log := st.log ++ [PubOutcome.published] }
        else
          { st with calls := st.calls + 1, log := st.log ++ [PubOutcome.failed] }
    | PostResult.exc =>
        { st with calls := st.calls + 1, log := st.log ++ [PubOutcome.failed] }

/-- `post_products_to_api`: fold the publish loop over the candidates in
order. The Python function returns `(posted, skipped)`; the model keeps
the whole final state so the claims can also speak about the per-record
outcomes. -/
def post_products_to_api (oracle : Nat → PostResult) (init : List (List Char))
    (products : List Product) : PostState :=
  products.foldl (pubStep oracle) (initState init)

theorem head_dropWhile_false {α : Type} {p : α → Bool} :
    ∀ {l : List α} {c : α} {rest : List α}, List.dropWhile p l = c :: rest → p c = false := by
  intro l
  induction l with
  | nil => intro c rest h; cases h
  | cons a t ih =>
      intro c rest h
      rw [List.dropWhile_cons] at h
      split at h
      · exact ih h
      · next hpa =>
          injection h with h1 _
          subst h1
          cases hb : p a with
          | false => rfl
          | true => exact absurd hb hpa

theorem mem_trimChars {c : Char} {s : List Char} (h : c ∈ trimChars s) : c ∈ s := by
  unfold trimChars at h
  have h1 := List.mem_reverse.mp h
  have h2 := (List.dropWhile_sublist _).mem h1
  have h3 := List.mem_reverse.mp h2
  exact (List.dropWhile_sublist _).mem h3

theorem trimChars_nonspace {s : List Char} (h : trimChars s ≠ []) :
    ∃ c ∈ trimChars s, isSpaceP c = false := by
  unfold trimChars at h ⊢
  cases e : ((s.dropWhile isSpaceP).reverse.dropWhile isSpaceP) with
  | nil => simp [e] at h
  | cons c rest =>
      refine ⟨c, ?_, head_dropWhile_false e⟩
      exact List.mem_reverse.mpr (List.mem_cons_self _ _)

theorem pyFloatCore_no_digit (neg : Bool) (t : List Char)
    (h : ∀ c ∈ t, c.isDigit = false) : pyFloatCore neg t = none := by
  have hany : t.any Char.isDigit = false := by
    cases e : t.any Char.isDigit
    · rfl
    · obtain ⟨c, hc, hd⟩ := List.any_eq_true.mp e
      rw [h c hc] at hd
      cases hd
  unfold pyFloatCore
  rw [hany]
  simp

theorem pyFloatNum_no_digit (s : List Char) (h : ∀ c ∈ s, c.isDigit = false) :
    pyFloatNum s = none := by
  unfold pyFloatNum
  have htail : ∀ c ∈ s.tail, c.isDigit = false :=
    fun c hc => h c ((List.tail_sublist s).mem hc)
  split
  · exact pyFloatCore_no_digit _ _ htail
  · exact pyFloatCore_no_digit _ _ h

theorem parse_price_no_digit (text : List Char) (h : ∀ c ∈ text, c.isDigit = false) :
    parse_price text = none := by
  have hnum : ∀ c ∈ ((trimChars (text.filter (fun c => !(c == '€') && !(c == '$')))).map
      (fun c => if c == ',' then '.' else c)).filter
        (fun c => c.isDigit || c == '.' || c == '-'), c.isDigit = false := by
    intro c hc
    have hc3 := List.mem_of_mem_filter hc
    obtain ⟨d, hd2, hde⟩ := List.mem_map.mp hc3
    have hd1 := mem_trimChars hd2
    have hdt : d ∈ text := List.mem_of_mem_filter hd1
    by_cases hcomma : (d == ',') = true
    · rw [if_pos hcomma] at hde
      rw [← hde]
      decide
    · rw [if_neg hcomma] at hde
      rw [← hde]
      exact h d hdt
  unfold parse_price
  split
  · rfl
  · dsimp only
    split
    · rfl
    · exact pyFloatNum_no_digit _ hnum

/-- C2: counterexample. The normalizer does not map "€1.299,50" (nor
"$1,299.50") to 1299.50: the comma is turned into a second dot and the
numeric parse fails. -/
theorem C2_counterexample :
    parse_price ("€1.299,50".toList) ≠ some (mkRat 2599 2) ∧
    parse_price ("$1,299.50".toList) ≠ some (mkRat 2599 2) := by
  decide

/-- C2 (amended): on price strings carrying a currency symbol and both a
thousands and a decimal separator, such as "€1.299,50" and "$1,299.50",
`parse_price` returns the same result for both conventions, namely `none`
(not the numeric value 1299.50); and for every input containing no digit
it returns `none`. -/
theorem C2_price_normalizer :
    parse_price ("€1.299,50".toList) = none ∧
    parse_price ("$1,299.50".toList) = none ∧
    ∀ text : List Char, (∀ c ∈ text, c.isDigit = false) → parse_price text = none :=
  ⟨by decide, by decide, fun text h => parse_price_no_digit text h⟩

/-- C2 witness: the no-digit clause of `C2_price_normalizer` at the
concrete input "no price". -/
theorem C2_witness : parse_price ("no price".toList) = none :=
  C2_price_normalizer.2.2 ("no price".toList) (by decide)

theorem runPage_eq (o : Nat → AttemptResult) :
    runPage o = match (fetchPage o 1 3).page with
      | some pg => ⟨(fetchPage o 1 3).waits, true, pg.items.filterMap processItem,
          some (mkRat 9 20)⟩
      | none => ⟨(fetchPage o 1 3).waits, false, [], none⟩ := rfl

/-- A server that answers HTTP 503 to the first three attempts for a page
and succeeds from the fourth attempt on. -/
def o503 : Nat → AttemptResult :=
  fun k => if k ≤ 3 then AttemptResult.err (some 503) else AttemptResult.ok ⟨[]⟩

/-- C3: counterexample. Against a server that fails with 503 on the first
three attempts and would succeed on the fourth, the page loop of
`scrape_category` (whose budget is `max_attempts = 3`) never makes the
fourth attempt: the page is not fetched, its products are absent, and only
two backoff waits (1 s and 2 s) occur instead of the claimed three. -/
theorem C3_counterexample :
    o503 4 = AttemptResult.ok ⟨[]⟩ ∧
    (fetchPage o503 1 3).attempts = 3 ∧
    runPage o503 = ⟨[1, 2], false, [], none⟩ := by
  refine ⟨by decide, by decide, ?_⟩
  simp [runPage_eq, fetchPage, fetchGo, o503]

/-- C3 (amended): within the 3-attempt budget, a page fetch that fails on
the first two attempts and succeeds on the third is admitted; the page's
products are included and exactly two backoff waits occur, of durations
`base` and `2*base` with `base = 1.0` (the wait before attempt `k+1` is
`base * 2 ^ (k - 1)`, attempts counted from 1). -/
theorem C3_retry_backoff : ∀ (o : Nat → AttemptResult) (pg : Page) (s1 s2 : Option Nat),
    o 1 = AttemptResult.err s1 → o 2 = AttemptResult.err s2 →
    o 3 = AttemptResult.ok pg →
    runPage o = ⟨[1, 2], true, pg.items.filterMap processItem, some (mkRat 9 20)⟩ := by
  intro o pg s1 s2 h1 h2 h3
  simp [runPage_eq, fetchPage, fetchGo, h1, h2, h3]

/-- A server that answers HTTP 503 to the first two attempts for a page and
succeeds on the third. -/
def oThird : Nat → AttemptResult :=
  fun k => if k ≤ 2 then AttemptResult.err (some 503) else AttemptResult.ok ⟨[]⟩

/-- C3 witness: `C3_retry_backoff` at a concrete oracle failing twice with
503 and succeeding on the third attempt with an empty page. -/
theorem C3_witness :
    runPage oThird = ⟨[1, 2], true, [], some (mkRat 9 20)⟩ :=
  C3_retry_backoff oThird ⟨[]⟩ (some 503) (some 503) (by decide) (by decide) (by decide)

/-- A server that always answers HTTP 404. -/
def o404 : Nat → AttemptResult := fun _ => AttemptResult.err (some 404)

/-- C4: counterexample. A page failing with HTTP 404 — a non-retryable 4xx
per the claim — is nonetheless retried through the full 3-attempt budget of
the page loop, with two backoff waits, rather than terminating immediately
with no retry and no wait. -/
theorem C4_counterexample :
    (fetchPage o404 1 3).attempts = 3 ∧ (fetchPage o404 1 3).waits = [1, 2] := by
  refine ⟨by decide, ?_⟩
  simp [fetchPage, fetchGo, o404]

/-- C4 (amended): a fetch that keeps failing with one and the same HTTP
status (404 included — `raise_for_status` turns any 4xx into a
`RequestException` that the loop catches like any other failure) is retried
up to the 3-attempt budget with backoff waits 1 s and 2 s, and the page is
skipped only after exhaustion. -/
theorem C4_4xx_retried : ∀ (o : Nat → AttemptResult) (c : Nat),
    (∀ k, o k = AttemptResult.err (some c)) →
    runPage o = ⟨[1, 2], false, [], none⟩ ∧ (fetchPage o 1 3).attempts = 3 := by
  intro o c h
  constructor
  · simp [runPage_eq, fetchPage, fetchGo, h]
  · simp [fetchPage, fetchGo, h]

/-- C4 witness: `C4_4xx_retried` at the constant-404 oracle. -/
theorem C4_witness :
    runPage o404 = ⟨[1, 2], false, [], none⟩ ∧ (fetchPage o404 1 3).attempts = 3 :=
  C4_4xx_retried o404 404 (fun _ => rfl)

/-- A two-page run: page 1 always fails (transport error), page 2 succeeds
immediately with an empty page. -/
def oPolite : Nat → Nat → AttemptResult :=
  fun page _ => if page = 1 then AttemptResult.err none else AttemptResult.ok ⟨[]⟩

/-- C9: counterexample. In a two-page scrape where page 1 exhausts its
attempts and page 2 succeeds, no polite delay separates the two page
fetches: the first iteration is cut short by `continue`, which skips the
`time.sleep(0.45)` at the end of the loop body. -/
theorem C9_counterexample :
    (scrapeTrace oPolite 2).map PageTrace.fetched = [false, true] ∧
    (scrapeTrace oPolite 2).map PageTrace.politeDelay = [none, some (mkRat 9 20)] := by
  exact ⟨by decide, by decide⟩

/-- C9 (amended): the fixed 0.45 s polite delay follows every successfully
fetched page (including the last one), but after a page whose fetch
exhausted its attempts the loop moves to the next page with no polite
delay. -/
theorem C9_polite_delay : ∀ (oracles : Nat → Nat → AttemptResult) (n : Nat) (t : PageTrace),
    t ∈ scrapeTrace oracles n →
    (t.fetched = true → t.politeDelay = some (mkRat 9 20)) ∧
    (t.fetched = false → t.politeDelay = none) := by
  intro oracles n t ht
  rcases List.mem_map.mp ht with ⟨i, hi, rfl⟩
  rw [runPage_eq]
  cases e : (fetchPage (oracles (i + 1)) 1 3).page <;> simp

/-- C9 witness: `C9_polite_delay` at the second page of the concrete
two-page run `oPolite`. -/
theorem C9_witness :
    ((runPage (oPolite 2)).fetched = true →
      (runPage (oPolite 2)).politeDelay = some (mkRat 9 20)) ∧
    ((runPage (oPolite 2)).fetched = false → (runPage (oPolite 2)).politeDelay = none) :=
  C9_polite_delay oPolite 2 (runPage (oPolite 2))
    (List.mem_map.mpr ⟨1, by decide, rfl⟩)

/-- C6: a page whose fetch exhausts all attempts is skipped and never fatal:
the loop still visits all `maxPages` pages, the returned sequence is exactly
the concatenation of the per-page product lists, an exhausted page
contributes no products, and a fetched page contributes exactly the valid
records extracted from its body. -/
theorem C6_skip_exhausted_pages : ∀ (oracles : Nat → Nat → AttemptResult) (n : Nat),
    (scrapeTrace oracles n).length = n ∧
    scrape_category oracles n = (scrapeTrace oracles n).flatMap PageTrace.products ∧
    (∀ t ∈ scrapeTrace oracles n, t.fetched = false → t.products = []) ∧
    (∀ t ∈ scrapeTrace oracles n, t.fetched = true →
        ∃ pg : Page, t.products = pg.items.filterMap processItem) := by
  intro oracles n
  refine ⟨by simp [scrapeTrace], rfl, ?_, ?_⟩
  · intro t ht hf
    rcases List.mem_map.mp ht with ⟨i, hi, rfl⟩
    rw [runPage_eq] at hf ⊢
    cases e : (fetchPage (oracles (i + 1)) 1 3).page
    · simp
    · rw [e] at hf
      simp at hf
  · intro t ht hf
    rcases List.mem_map.mp ht with ⟨i, hi, rfl⟩
    rw [runPage_eq] at hf ⊢
    cases e : (fetchPage (oracles (i + 1)) 1 3).page with
    | none =>
        rw [e] at hf
        simp at hf
    | some pg =>
        exact ⟨pg, by simp⟩

/-- A two-page run where page 1 always fails and page 2 succeeds with an
empty page, used by the C6 witness. -/
def oSkip : Nat → Nat → AttemptResult :=
  fun page _ => if page = 1 then AttemptResult.err none else AttemptResult.ok ⟨[]⟩

/-- C6 witness: in the concrete two-page run `oSkip`, the exhausted first
page contributes no products. -/
theorem C6_witness : (runPage (oSkip 1)).products = [] :=
  ((C6_skip_exhausted_pages oSkip 2).2.2.1 (runPage (oSkip 1))
    (List.mem_map.mpr ⟨0, by decide, rfl⟩)) (by decide)

theorem title0_trim {it : Item} {t : List Char} (h : it.titleText.map trimChars = some t) :
    ∃ s, t = trimChars s := by
  rcases Option.map_eq_some'.mp h with ⟨raw, _, hr⟩
  exact ⟨raw, hr.symm⟩

theorem resolveTitle_trim {it : Item} {t : List Char} (h : resolveTitle it = some t) :
    ∃ s, t = trimChars s := by
  unfold resolveTitle at h
  dsimp only at h
  split at h
  · split at h
    · next =>
        cases e : it.detailTitleText.map trimChars with
        | none => rw [e] at h; exact title0_trim h
        | some dt =>
            rw [e] at h
            dsimp only at h
            split at h
            · exact title0_trim h
            · injection h with h1
              rcases Option.map_eq_some'.mp e with ⟨raw, _, hr⟩
              exact ⟨raw, (h1 ▸ hr).symm⟩
    · exact title0_trim h
  · exact title0_trim h

theorem processItem_good {it : Item} {p : Product} (h : processItem it = some p) :
    p.name ≠ [] ∧ badTitle p.name = false ∧ ∃ c ∈ p.name, isSpaceP c = false := by
  unfold processItem at h
  cases e : resolveTitle it with
  | none => rw [e] at h; cases h
  | some t =>
      rw [e] at h
      dsimp only at h
      split at h
      · cases h
      · next hc =>
          injection h with h1
          subst h1
          simp only [Bool.or_eq_true, not_or] at hc
          have hne : t ≠ [] := by
            intro hnil
            subst hnil
            exact hc.1 rfl
          rcases resolveTitle_trim e with ⟨s, rfl⟩
          refine ⟨hne, ?_, trimChars_nonspace hne⟩
          cases hb : badTitle (trimChars s) with
          | false => rfl
          | true => exact absurd hb hc.2

/-- C1: an entry whose title cannot be resolved to a valid one is discarded
entirely, and consequently every record returned by `scrape_category` has a
name that is non-empty, not whitespace-only, and not badge-like. -/
theorem C1_name_invariant :
    (∀ it : Item, titleFails (resolveTitle it) = true → processItem it = none) ∧
    (∀ (oracles : Nat → Nat → AttemptResult) (n : Nat) (p : Product),
      p ∈ scrape_category oracles n →
      p.name ≠ [] ∧ (∃ c ∈ p.name, isSpaceP c = false) ∧ badTitle p.name = false) := by
  constructor
  · intro it hf
    cases e : resolveTitle it with
    | none => simp [processItem, e]
    | some t =>
        rw [e] at hf
        simp only [titleFails] at hf
        simp [processItem, e, hf]
  · intro oracles n p hp
    unfold scrape_category at hp
    rcases List.mem_flatMap.mp hp with ⟨t, ht, hpt⟩
    rcases List.mem_map.mp ht with ⟨i, hi, rfl⟩
    rw [runPage_eq] at hpt
    cases e : (fetchPage (oracles (i + 1)) 1 3).page with
    | none => rw [e] at hpt; simp at hpt
    | some pg =>
        rw [e] at hpt
        try dsimp only at hpt
        rcases List.mem_filterMap.mp hpt with ⟨it, _, hit⟩
        obtain ⟨h1, h2, h3⟩ := processItem_good hit
        exact ⟨h1, h3, h2⟩

/-- An entry with no extractable fields at all. -/
def itemBad : Item := ⟨none, none, none, none, none⟩

/-- C1 witness: the discard clause of `C1_name_invariant` at a concrete
entry with no title, no link and no detail page. -/
theorem C1_witness : processItem itemBad = none :=
  C1_name_invariant.1 itemBad (by decide)

theorem pyFloatCore_nonneg {t : List Char} {q : Rat} (h : pyFloatCore false t = some q) :
    0 ≤ q := by
  unfold pyFloatCore at h
  split at h
  · injection h with h1
    rw [← h1]
    simp only [Bool.false_eq_true, if_false]
    rw [Rat.mkRat_eq_div]
    positivity
  · cases h

theorem pyFloatNum_no_minus_nonneg {s : List Char} {q : Rat} (hm : '-' ∉ s)
    (h : pyFloatNum s = some q) : 0 ≤ q := by
  unfold pyFloatNum at h
  split at h
  · next hh =>
      exfalso
      cases s with
      | nil => cases hh
      | cons a rest =>
          simp only [List.head?_cons, Option.some.injEq] at hh
          exact hm (hh ▸ List.mem_cons_self a rest)
  · exact pyFloatCore_nonneg h

theorem parse_price_nonneg {t : List Char} {q : Rat} (hm : '-' ∉ t)
    (h : parse_price t = some q) : 0 ≤ q := by
  have hnum : '-' ∉ ((trimChars (t.filter (fun c => !(c == '€') && !(c == '$')))).map
      (fun c => if c == ',' then '.' else c)).filter
        (fun c => c.isDigit || c == '.' || c == '-') := by
    intro hc
    have hc3 := List.mem_of_mem_filter hc
    rcases List.mem_map.mp hc3 with ⟨d, hd2, hde⟩
    have hdt := List.mem_of_mem_filter (mem_trimChars hd2)
    by_cases hcomma : (d == ',') = true
    · rw [if_pos hcomma] at hde
      cases hde
    · rw [if_neg hcomma] at hde
      exact hm (hde ▸ hdt)
  unfold parse_price at h
  split at h
  · cases h
  · dsimp only at h
    split at h
    · cases h
    · exact pyFloatNum_no_minus_nonneg hnum h

/-- An entry whose price badge carries a minus sign. -/
def itemNeg : Item := ⟨some "Game".toList, some "-5.00".toList, none, none, none⟩

/-- A one-page run serving just the negative-priced entry. -/
def oNeg : Nat → Nat → AttemptResult := fun _ _ => AttemptResult.ok ⟨[itemNeg]⟩

/-- C8: counterexample. Nothing in `scrape_category` enforces non-negative
prices: an entry whose price text reads "-5.00" is emitted as a record with
price -5, which is negative. -/
theorem C8_counterexample :
    scrape_category oNeg 1 = [⟨"Game".toList, some (mkRat (-5) 1), none, none, none⟩] ∧
    mkRat (-5) 1 < 0 :=
  ⟨by decide, by decide⟩

theorem processItem_price {it : Item} {p : Product} (h : processItem it = some p) :
    p.price = Option.bind it.priceText parse_price := by
  unfold processItem at h
  cases et : resolveTitle it with
  | none => rw [et] at h; cases h
  | some t0 =>
      rw [et] at h
      try dsimp only at h
      split at h
      · cases h
      · injection h with h1
        subst h1
        cases ept : it.priceText with
        | none => rfl
        | some pt => rfl

/-- C8 (amended): the price field of an emitted record is exactly the
`parse_price` value of the entry's own price text; whenever that text
contains no minus character the price, when present, is non-negative; and
every record of `scrape_category` arises from such an entry. The scraper
imposes no sign constraint beyond this. -/
theorem C8_price_field :
    (∀ (it : Item) (p : Product), processItem it = some p →
      p.price = Option.bind it.priceText parse_price) ∧
    (∀ (it : Item) (p : Product) (q : Rat) (t : List Char),
      processItem it = some p → it.priceText = some t → p.price = some q →
      '-' ∉ t → 0 ≤ q) ∧
    (∀ (oracles : Nat → Nat → AttemptResult) (n : Nat) (p : Product),
      p ∈ scrape_category oracles n → ∃ it : Item, processItem it = some p) := by
  refine ⟨fun it p h => processItem_price h, ?_, ?_⟩
  · intro it p q t hit hpt hq hm
    have hp := processItem_price hit
    rw [hpt] at hp
    rw [hq] at hp
    exact parse_price_nonneg hm hp.symm
  · intro oracles n p hp
    unfold scrape_category at hp
    rcases List.mem_flatMap.mp hp with ⟨tr, htr, hpt⟩
    rcases List.mem_map.mp htr with ⟨i, hi, rfl⟩
    rw [runPage_eq] at hpt
    cases e : (fetchPage (oracles (i + 1)) 1 3).page with
    | none => rw [e] at hpt; simp at hpt
    | some pg =>
        rw [e] at hpt
        try dsimp only at hpt
        rcases List.mem_filterMap.mp hpt with ⟨it, _, hit⟩
        exact ⟨it, hit⟩

/-- An entry with an ordinary euro price. -/
def itemPos : Item := ⟨some "Game".toList, some "€5.00".toList, none, none, none⟩

/-- C8 witness: both price clauses of `C8_price_field` at the concrete
entry `itemPos`, whose record carries price 5 parsed from the minus-free
text "€5.00". -/
theorem C8_witness :
    (⟨"Game".toList, some (mkRat 5 1), none, none, none⟩ : Product).price
        = Option.bind itemPos.priceText parse_price ∧
    (0 : Rat) ≤ mkRat 5 1 :=
  ⟨C8_price_field.1 itemPos ⟨"Game".toList, some (mkRat 5 1), none, none, none⟩
      (by decide),
   C8_price_field.2.1 itemPos ⟨"Game".toList, some (mkRat 5 1), none, none, none⟩
      (mkRat 5 1) ("€5.00".toList) (by decide) rfl (by decide) (by decide)⟩

theorem pubStep_existing_mono (oracle : Nat → PostResult) (st : PostState) (p : Product)
    {a : List Char} (h : a ∈ st.existing) : a ∈ (pubStep oracle st p).existing := by
  unfold pubStep
  split
  · exact h
  · split
    · split
      · exact List.mem_cons_of_mem _ h
      · exact h
    · exact h

theorem pubFold_existing_mono (oracle : Nat → PostResult) (l : List Product) :
    ∀ (st : PostState) {a : List Char}, a ∈ st.existing →
      a ∈ (l.foldl (pubStep oracle) st).existing := by
  induction l with
  | nil => intro st a h; exact h
  | cons p rest ih =>
      intro st a h
      rw [List.foldl_cons]
      exact ih _ (pubStep_existing_mono oracle st p h)

theorem pubStep_existing_sub (oracle : Nat → PostResult) (st : PostState) (p : Product)
    {a : List Char} (h : a ∈ (pubStep oracle st p).existing) :
    a ∈ st.existing ∨ a = p.name := by
  unfold pubStep at h
  split at h
  · exact Or.inl h
  · split at h
    · split at h
      · rcases List.mem_cons.mp h with h2 | h2
        · exact Or.inr h2
        · exact Or.inl h2
      · exact Or.inl h
    · exact Or.inl h

theorem pubFold_existing_sub (oracle : Nat → PostResult) (l : List Product) :
    ∀ (st : PostState) {a : List Char},
      a ∈ (l.foldl (pubStep oracle) st).existing →
      a ∈ st.existing ∨ ∃ x ∈ l, x.name = a := by
  induction l with
  | nil => intro st a h; exact Or.inl h
  | cons p rest ih =>
      intro st a h
      rw [List.foldl_cons] at h
      rcases ih _ h with h2 | ⟨x, hx, he⟩
      · rcases pubStep_existing_sub oracle st p h2 with h3 | h3
        · exact Or.inl h3
        · exact Or.inr ⟨p, List.mem_cons_self _ _, h3.symm⟩
      · exact Or.inr ⟨x, List.mem_cons_of_mem _ hx, he⟩

theorem pubStep_log (oracle : Nat → PostResult) (st : PostState) (p : Product) :
    ∃ o : PubOutcome, (pubStep oracle st p).log = st.log ++ [o] := by
  unfold pubStep
  split
  · exact ⟨_, rfl⟩
  · split
    · split
      · exact ⟨_, rfl⟩
      · exact ⟨_, rfl⟩
    · exact ⟨_, rfl⟩

theorem pubFold_log (oracle : Nat → PostResult) (l : List Product) :
    ∀ st : PostState, ∃ t : List PubOutcome,
      (l.foldl (pubStep oracle) st).log = st.log ++ t ∧ t.length = l.length := by
  induction l with
  | nil => intro st; exact ⟨[], by simp, rfl⟩
  | cons p rest ih =>
      intro st
      rw [List.foldl_cons]
      rcases pubStep_log oracle st p with ⟨o, ho⟩
      rcases ih (pubStep oracle st p) with ⟨t, ht, hlen⟩
      refine ⟨o :: t, ?_, by simp [hlen]⟩
      rw [ht, ho, List.append_assoc]
      rfl

theorem pubFold_log_length (oracle : Nat → PostResult) (init : List (List Char))
    (ps : List Product) : (post_products_to_api oracle init ps).log.length = ps.length := by
  rcases pubFold_log oracle ps (initState init) with ⟨t, ht, hlen⟩
  unfold post_products_to_api
  rw [ht]
  simp [initState, hlen]

theorem pubStep_not_mem_success (oracle : Nat → PostResult) (st : PostState) (p : Product)
    (hne : p.name ∉ st.existing)
    (hok : oracle st.calls = PostResult.status 200 ∨
      oracle st.calls = PostResult.status 201) :
    pubStep oracle st p = ⟨p.name :: st.existing, st.posted + 1, st.skipped, st.calls + 1,
      st.log ++ [PubOutcome.published]⟩ := by
  unfold pubStep
  rw [if_neg hne]
  rcases hok with h | h <;> rw [h] <;> simp

theorem pubStep_mem_skip (oracle : Nat → PostResult) (st : PostState) (p : Product)
    (hmem : p.name ∈ st.existing) :
    pubStep oracle st p = { st with
        skipped := st.skipped + 1
        log := st.log ++ [PubOutcome.skippedDup] } := by
  unfold pubStep
  rw [if_pos hmem]

theorem pubStep_accounting (oracle : Nat → PostResult) (st : PostState) (p : Product) :
    (pubStep oracle st p).posted + (pubStep oracle st p).skipped
        + ((pubStep oracle st p).log.count PubOutcome.failed)
      = st.posted + st.skipped + st.log.count PubOutcome.failed + 1 := by
  unfold pubStep
  split
  · simp [List.count_append]
    omega
  · split
    · split
      · simp [List.count_append]
        omega
      · simp [List.count_append]
        omega
    · simp [List.count_append]
      omega

theorem pubFold_accounting (oracle : Nat → PostResult) (l : List Product) :
    ∀ st : PostState,
      (l.foldl (pubStep oracle) st).posted + (l.foldl (pubStep oracle) st).skipped
          + ((l.foldl (pubStep oracle) st).log.count PubOutcome.failed)
        = st.posted + st.skipped + st.log.count PubOutcome.failed + l.length := by
  induction l with
  | nil => intro st; simp
  | cons p rest ih =>
      intro st
      rw [List.foldl_cons, ih (pubStep oracle st p), pubStep_accounting]
      simp [List.length_cons]
      omega

/-- C5: two candidates with the same exact name in one run, the name not in
the remote known-set, the first create call succeeding — exactly one is
published and the other is reported skipped-duplicate, because the
known-set is extended in memory right after the successful publish. -/
theorem C5_dedup_same_run : ∀ (oracle : Nat → PostResult) (init : List (List Char))
    (xs : List Product) (p : Product) (ys : List Product) (q : Product) (zs : List Product),
    p.name = q.name → p.name ∉ init → (∀ x ∈ xs, x.name ≠ p.name) →
    (oracle (xs.foldl (pubStep oracle) (initState init)).calls = PostResult.status 200 ∨
     oracle (xs.foldl (pubStep oracle) (initState init)).calls = PostResult.status 201) →
    ∃ t1 t2 t3 : List PubOutcome,
      (post_products_to_api oracle init (xs ++ p :: (ys ++ q :: zs))).log
        = t1 ++ PubOutcome.published :: (t2 ++ PubOutcome.skippedDup :: t3) ∧
      t1.length = xs.length ∧ t2.length = ys.length ∧ t3.length = zs.length := by
  intro oracle init xs p ys q zs hpq hinit hxs hok
  have hnot : p.name ∉ (xs.foldl (pubStep oracle) (initState init)).existing := by
    intro hmem
    rcases pubFold_existing_sub oracle xs (initState init) hmem with h | ⟨x, hx, he⟩
    · exact hinit h
    · exact hxs x hx he
  have hstep := pubStep_not_mem_success oracle
    (xs.foldl (pubStep oracle) (initState init)) p hnot hok
  have hrun : post_products_to_api oracle init (xs ++ p :: (ys ++ q :: zs))
      = (ys ++ q :: zs).foldl (pubStep oracle)
          (pubStep oracle (xs.foldl (pubStep oracle) (initState init)) p) := by
    unfold post_products_to_api
    rw [List.foldl_append, List.foldl_cons]
  have hqin : q.name ∈ (ys.foldl (pubStep oracle)
      (pubStep oracle (xs.foldl (pubStep oracle) (initState init)) p)).existing := by
    apply pubFold_existing_mono
    rw [hstep, ← hpq]
    exact List.mem_cons_self _ _
  have hqstep := pubStep_mem_skip oracle (ys.foldl (pubStep oracle)
    (pubStep oracle (xs.foldl (pubStep oracle) (initState init)) p)) q hqin
  rcases pubFold_log oracle xs (initState init) with ⟨t1, ht1, hl1⟩
  rcases pubFold_log oracle ys
      (pubStep oracle (xs.foldl (pubStep oracle) (initState init)) p) with ⟨t2, ht2, hl2⟩
  rcases pubFold_log oracle zs
      (pubStep oracle (ys.foldl (pubStep oracle)
        (pubStep oracle (xs.foldl (pubStep oracle) (initState init)) p)) q) with ⟨t3, ht3, hl3⟩
  refine ⟨t1, t2, t3, ?_, hl1, hl2, hl3⟩
  rw [hrun, List.foldl_append, List.foldl_cons, ht3, hqstep]
  dsimp only
  rw [ht2, hstep]
  dsimp only
  rw [ht1]
  simp [initState, List.append_assoc]

/-- The publish scenario of C5 with two identically named candidates and an
always-200 endpoint. -/
def pubProd : Product := ⟨"Portal".toList, none, none, none, none⟩

/-- An endpoint that accepts every create call with status 200. -/
def ok200 : Nat → PostResult := fun _ => PostResult.status 200

/-- C5 witness: `C5_dedup_same_run` on the concrete two-candidate run
`[pubProd, pubProd]` against an empty known-set. -/
theorem C5_witness : ∃ t1 t2 t3 : List PubOutcome,
    (post_products_to_api ok200 [] ([] ++ pubProd :: ([] ++ pubProd :: []))).log
      = t1 ++ PubOutcome.published :: (t2 ++ PubOutcome.skippedDup :: t3) ∧
    t1.length = ([] : List Product).length ∧ t2.length = ([] : List Product).length ∧
    t3.length = ([] : List Product).length :=
  C5_dedup_same_run ok200 [] [] pubProd [] pubProd [] rfl
    (List.not_mem_nil pubProd.name) (fun x hx => absurd hx (List.not_mem_nil x))
    (Or.inl rfl)

/-- C7: a failing create call never aborts the batch (the log always has one
outcome per candidate), candidates are folded strictly in sequence order,
and for a non-duplicate candidate the published counter is incremented
exactly when the create call returns status 200 or 201; a duplicate makes
no call and changes no counter. -/
theorem C7_batch_isolation : ∀ (oracle : Nat → PostResult) (init : List (List Char))
    (ps : List Product) (p : Product) (rest : List Product) (st : PostState) (q : Product),
    (post_products_to_api oracle init ps).log.length = ps.length ∧
    post_products_to_api oracle init (p :: rest)
      = rest.foldl (pubStep oracle) (pubStep oracle (initState init) p) ∧
    (q.name ∉ st.existing →
      ((pubStep oracle st q).posted = st.posted + 1 ↔
        (oracle st.calls = PostResult.status 200 ∨
          oracle st.calls = PostResult.status 201))) ∧
    (q.name ∈ st.existing →
      (pubStep oracle st q).posted = st.posted ∧ (pubStep oracle st q).calls = st.calls) := by
  intro oracle init ps p rest st q
  refine ⟨pubFold_log_length oracle init ps, rfl, ?_, ?_⟩
  · intro hne
    unfold pubStep
    rw [if_neg hne]
    cases eo : oracle st.calls with
    | exc => simp
    | status c =>
        dsimp only
        split
        · next hcond => simp [hcond]
        · next hcond => simp [hcond]
  · intro hmem
    unfold pubStep
    rw [if_pos hmem]
    exact ⟨rfl, rfl⟩

/-- A candidate used by the C7 witness. -/
def prodW : Product := ⟨"Mario".toList, none, none, none, none⟩

/-- An endpoint that accepts every create call with status 201. -/
def ok201 : Nat → PostResult := fun _ => PostResult.status 201

/-- C7 witness: the counter-increment clause of `C7_batch_isolation` at a
concrete non-duplicate candidate and a 201 response. -/
theorem C7_witness :
    (pubStep ok201 (initState []) prodW).posted = (initState []).posted + 1 :=
  ((C7_batch_isolation ok201 [] [] prodW [] (initState []) prodW).2.2.1
    (by decide)).mpr (Or.inr rfl)

/-- C10: a candidate whose create call fails is counted in neither counter,
so posted + skipped + failures = number of candidates; hence
posted + skipped is at most the candidate count, with strict inequality
exactly when at least one create call failed. -/
theorem C10_failure_accounting : ∀ (oracle : Nat → PostResult) (init : List (List Char))
    (ps : List Product),
    (post_products_to_api oracle init ps).posted
        + (post_products_to_api oracle init ps).skipped
        + ((post_products_to_api oracle init ps).log.count PubOutcome.failed)
      = ps.length ∧
    (post_products_to_api oracle init ps).posted
        + (post_products_to_api oracle init ps).skipped ≤ ps.length ∧
    ((post_products_to_api oracle init ps).posted
        + (post_products_to_api oracle init ps).skipped < ps.length ↔
      0 < (post_products_to_api oracle init ps).log.count PubOutcome.failed) := by
  intro oracle init ps
  have h := pubFold_accounting oracle ps (initState init)
  simp only [initState, List.count_nil, Nat.add_zero, Nat.zero_add] at h
  unfold post_products_to_api
  refine ⟨?_, ?_, ?_⟩ <;> unfold initState <;> omega

end GameStore
